/-
Verification of the StockHark sentiment aggregation engine
(src/stockhark/core/services/sentiment_aggregator.py and the tables in
src/stockhark/core/constants.py).

Modelling conventions:
- Python floats are modelled exactly: every numeric *input* (raw sentiment,
  timestamps, configured weight tables, the decay rate) is a rational number,
  and computed quantities live in the reals, so that `math.exp`, `math.log`
  and `math.sqrt` become `Real.exp`, `Real.log` and `Real.sqrt` with exact
  arithmetic.
- A `datetime` is modelled as a rational number of seconds (the code strips
  time-zone information and only ever subtracts two datetimes and divides by
  3600, so a point on the second line is all that is observable).
- A Python dict of weights is modelled as an association list in insertion
  order, with `find?`-based lookup (first match), mirroring dict iteration
  order where the code iterates over keys.
- `aggregate_stock_sentiment` calls `datetime.now()` internally; the model
  takes this reference time as an explicit parameter.
- The `include_debug` flag and the `debug_info` / `methodology_version`
  fields only populate a diagnostic payload and are not modelled; the fields
  `symbol`, `final_sentiment`, `sentiment_label`, `confidence` and
  `total_mentions` are modelled in full.
-/
import Mathlib

namespace StockHark

/-- One sentiment mention, from the `SentimentMention` dataclass. The
`__post_init__` time-zone normalisation is absorbed by modelling a datetime
as a plain rational number of seconds. -/
structure SentimentMention where
  symbol : String
  raw_sentiment : ℚ
  timestamp : ℚ
  source : String
  text : String
  post_url : Option String := none
deriving DecidableEq

/-- Final aggregated sentiment result, from the `AggregatedSentiment`
dataclass (diagnostic fields omitted). -/
structure AggregatedSentiment where
  symbol : String
  final_sentiment : ℝ
  sentiment_label : String
  confidence : ℝ
  total_mentions : ℕ

/-- Constant `SENTIMENT_TIME_DECAY_LAMBDA` from constants.py. -/
def SENTIMENT_TIME_DECAY_LAMBDA : ℚ := 0.1

/-- Constant `POST_COUNT_WEIGHT_MULTIPLIER` from constants.py. -/
def POST_COUNT_WEIGHT_MULTIPLIER : ℚ := 0.3

/-- Constant `MIN_POST_COUNT_WEIGHT` from constants.py. -/
def MIN_POST_COUNT_WEIGHT : ℚ := 1.0

/-- Constant `MAX_POST_COUNT_WEIGHT` from constants.py. -/
def MAX_POST_COUNT_WEIGHT : ℚ := 2.0

/-- Constant `MIN_SENTIMENT_SCORE` from constants.py. -/
def MIN_SENTIMENT_SCORE : ℚ := -1.0

/-- Constant `MAX_SENTIMENT_SCORE` from constants.py. -/
def MAX_SENTIMENT_SCORE : ℚ := 1.0

/-- The `SOURCE_WEIGHTS` dict from constants.py, in insertion order. -/
def SOURCE_WEIGHTS : List (String × ℚ) :=
  [("reddit", 1.0),
   ("reddit/r/investing", 1.0),
   ("reddit/r/stocks", 1.0),
   ("reddit/r/SecurityAnalysis", 1.0),
   ("reddit/r/ValueInvesting", 1.0),
   ("reddit/r/wallstreetbets", 0.8),
   ("reddit/r/pennystocks", 0.7),
   ("default", 1.0)]

/-- The `COMMON_WORD_SYMBOL_WEIGHTS` dict from constants.py, in insertion
order. -/
def COMMON_WORD_SYMBOL_WEIGHTS : List (String × ℚ) :=
  [("ANY", 0.3), ("BEAT", 0.4), ("CARE", 0.4), ("CASH", 0.6), ("COST", 0.7),
   ("GAME", 0.5), ("GOOD", 0.2), ("GROW", 0.6), ("HOPE", 0.3), ("LAND", 0.5),
   ("LINE", 0.4), ("LINK", 0.4), ("LIVE", 0.3), ("LOVE", 0.2), ("MIND", 0.4),
   ("MOVE", 0.3), ("NEXT", 0.4), ("ON", 0.2), ("OPEN", 0.3), ("PLAY", 0.3),
   ("PLUS", 0.5), ("REAL", 0.3), ("ROAD", 0.6), ("ROCK", 0.6), ("SELF", 0.4),
   ("STEP", 0.4), ("TALK", 0.3), ("TEAM", 0.4), ("TECH", 0.5), ("TRIP", 0.5),
   ("UNIT", 0.5), ("WAVE", 0.6), ("ZONE", 0.5),
   ("FREE", 0.05), ("HELP", 0.05), ("HOME", 0.1), ("LIFE", 0.05),
   ("LOOK", 0.05), ("MAKE", 0.05), ("MORE", 0.05), ("NEED", 0.05),
   ("PLAN", 0.1), ("POST", 0.1), ("RACE", 0.1), ("RIDE", 0.1), ("RISE", 0.1),
   ("SAFE", 0.1), ("SAME", 0.05), ("SAVE", 0.1), ("SHOW", 0.1), ("SIDE", 0.1),
   ("SIZE", 0.1), ("STOP", 0.1), ("SURE", 0.05), ("TAKE", 0.05),
   ("TIME", 0.05), ("TURN", 0.1), ("VIEW", 0.1), ("WALK", 0.1),
   ("WANT", 0.05), ("WEAR", 0.1), ("WEEK", 0.1), ("WELL", 0.05),
   ("WILL", 0.05), ("WORK", 0.1), ("YEAR", 0.1), ("YOUR", 0.05),
   ("default", 1.0)]

/-- Python `str.upper()`, as a character-wise map over the string's data
(the symbols and table keys involved are ASCII, where this is exact). -/
def pyUpper (s : String) : String :=
  String.mk (s.data.map Char.toUpper)

/-- Python `str.lower()`, as a character-wise map over the string's data. -/
def pyLower (s : String) : String :=
  String.mk (s.data.map Char.toLower)

/-- Membership test `key in dict` for an association-list dict. -/
def dictContains (d : List (String × ℚ)) (k : String) : Bool :=
  d.any (fun p => p.1 == k)

/-- Raw lookup of a key in an association-list dict. -/
def dictFind (d : List (String × ℚ)) (k : String) : Option ℚ :=
  (d.find? (fun p => p.1 == k)).map Prod.snd

/-- Subscript access `d[k]`; totalised with 0 for a missing key (the source
raises KeyError there, which never happens with the shipped tables, both of
which contain a "default" entry). -/
def dictGet (d : List (String × ℚ)) (k : String) : ℚ :=
  (dictFind d k).getD 0

/-- Python `d.get(k, fallback)`. -/
def dictGetD (d : List (String × ℚ)) (k : String) (fallback : ℚ) : ℚ :=
  (dictFind d k).getD fallback

/-- The `StockSentimentAggregator` object: `decay_lambda` from the
constructor argument and `source_weights` from the copied global table. -/
structure StockSentimentAggregator where
  decay_lambda : ℚ := SENTIMENT_TIME_DECAY_LAMBDA
  source_weights : List (String × ℚ) := SOURCE_WEIGHTS

/-- The default-constructed aggregator `StockSentimentAggregator()`. -/
def defaultAggregator : StockSentimentAggregator := {}

/-- `calculate_time_weight`: hours elapsed from `timestamp` to
`reference_time`, clipped at 0, fed into exponential decay. -/
noncomputable def calculate_time_weight (agg : StockSentimentAggregator)
    (timestamp : ℚ) (reference_time : ℚ) : ℝ :=
  let hours_elapsed : ℚ := max 0 ((reference_time - timestamp) / 3600)
  Real.exp (-(agg.decay_lambda : ℝ) * (hours_elapsed : ℝ))

/-- The pattern-matching loop inside `get_source_weight`: for a source of
the form "reddit/r/...", scan the table in insertion order for the first
pattern ending in "/r/<subreddit>" (lower-cased last path segment). -/
def source_pattern_hit (agg : StockSentimentAggregator) (source : String) :
    Option (String × ℚ) :=
  if source.startsWith "reddit/r/" then
    agg.source_weights.find?
      (fun p => p.1.endsWith ("/r/" ++ pyLower ((source.splitOn "/").getLastD "")))
  else none

/-- `get_source_weight`: exact dict hit, else a scan of the table for a
pattern ending in "/r/<subreddit>", else the generic "reddit" weight, else
the "default" weight. -/
def get_source_weight (agg : StockSentimentAggregator) (source : String) : ℚ :=
  if dictContains agg.source_weights source then
    dictGet agg.source_weights source
  else
    match source_pattern_hit agg source with
    | some p => p.2
    | none =>
        if source.startsWith "reddit" then
          dictGetD agg.source_weights "reddit" (dictGet agg.source_weights "default")
        else
          dictGet agg.source_weights "default"

/-- `get_symbol_weight`: penalty table lookup on the upper-cased symbol,
falling back to the table's own "default" entry. -/
def get_symbol_weight (symbol : String) : ℚ :=
  dictGetD COMMON_WORD_SYMBOL_WEIGHTS (pyUpper symbol)
    (dictGet COMMON_WORD_SYMBOL_WEIGHTS "default")

/-- `get_post_count_weight`: 1.0 for at most one unique post, else a
logarithmic boost capped at `MAX_POST_COUNT_WEIGHT`. -/
noncomputable def get_post_count_weight (unique_posts : ℕ) : ℝ :=
  if unique_posts ≤ 1 then (MIN_POST_COUNT_WEIGHT : ℝ)
  else
    min ((MIN_POST_COUNT_WEIGHT : ℝ) +
          Real.log (unique_posts : ℝ) * (POST_COUNT_WEIGHT_MULTIPLIER : ℝ))
        (MAX_POST_COUNT_WEIGHT : ℝ)

/-- The unique-post count computed at the top of `aggregate_stock_sentiment`.
The source accumulates `mention.post_id` values into a set, guarded by
`hasattr(mention, 'post_id')`; the `SentimentMention` dataclass declares no
`post_id` field (only `post_url`, which this code never reads), so the set is
always empty and the `len(mentions)` fallback is always taken. -/
def unique_posts_count (mentions : List SentimentMention) : ℕ :=
  mentions.length

/-- `_determine_sentiment_label`: threshold ladder on the final score. -/
noncomputable def _determine_sentiment_label (sentiment_score : ℝ) : String :=
  if 0.3 ≤ sentiment_score then "Strong Bullish"
  else if 0.1 ≤ sentiment_score then "Weak Bullish"
  else if sentiment_score ≤ -0.3 then "Strong Bearish"
  else if sentiment_score ≤ -0.1 then "Weak Bearish"
  else "Neutral"

/-- `_calculate_confidence`: blend of weight, consensus and sample-size
sub-scores, clamped to [0, 1]. -/
noncomputable def _calculate_confidence (mentions : List SentimentMention)
    (total_weight : ℝ) : ℝ :=
  match mentions with
  | [] => 0.0
  | _ :: _ =>
    let weight_confidence : ℝ := min 1.0 (total_weight / (mentions.length : ℝ))
    let sentiments : List ℚ := mentions.map (fun m => m.raw_sentiment)
    let consensus_confidence : ℝ :=
      if sentiments.length = 1 then 0.8
      else
        let mean_sentiment : ℚ := sentiments.sum / (sentiments.length : ℚ)
        let variance : ℚ :=
          (sentiments.map (fun s => (s - mean_sentiment) ^ 2)).sum /
            (sentiments.length : ℚ)
        let std_dev : ℝ := Real.sqrt (variance : ℝ)
        max 0.0 (1.0 - std_dev / 2.0)
    let sample_confidence : ℝ := min 1.0 ((mentions.length : ℝ) / 5.0)
    let final_confidence : ℝ :=
      weight_confidence * 0.4 + consensus_confidence * 0.4 +
        sample_confidence * 0.2
    max 0.0 (min 1.0 final_confidence)

/-- The combined per-mention weight built in the aggregation loop:
time weight × source weight × symbol weight × post-count weight. The symbol
weight is computed from `symbol`, i.e. the symbol of the *first* mention. -/
noncomputable def total_weight (agg : StockSentimentAggregator)
    (symbol : String) (post_count_weight : ℝ) (reference_time : ℚ)
    (m : SentimentMention) : ℝ :=
  calculate_time_weight agg m.timestamp reference_time *
    (get_source_weight agg m.source : ℝ) *
    (get_symbol_weight symbol : ℝ) * post_count_weight

/-- The `weighted_numerator` accumulator of the aggregation loop, as a sum
over the mention list. -/
noncomputable def weighted_numerator (agg : StockSentimentAggregator)
    (symbol : String) (post_count_weight : ℝ) (reference_time : ℚ)
    (mentions : List SentimentMention) : ℝ :=
  (mentions.map (fun m =>
    (m.raw_sentiment : ℝ) *
      total_weight agg symbol post_count_weight reference_time m)).sum

/-- The `weighted_denominator` accumulator of the aggregation loop, as a sum
over the mention list. -/
noncomputable def weighted_denominator (agg : StockSentimentAggregator)
    (symbol : String) (post_count_weight : ℝ) (reference_time : ℚ)
    (mentions : List SentimentMention) : ℝ :=
  (mentions.map (total_weight agg symbol post_count_weight reference_time)).sum

/-- `aggregate_stock_sentiment`: steps 4-5 of the methodology. The internal
`datetime.now()` is the explicit `reference_time` parameter. -/
noncomputable def aggregate_stock_sentiment (agg : StockSentimentAggregator)
    (mentions : List SentimentMention) (reference_time : ℚ) :
    AggregatedSentiment :=
  match mentions with
  | [] =>
      { symbol := "UNKNOWN"
        final_sentiment := 0.0
        sentiment_label := "neutral"
        confidence := 0.0
        total_mentions := 0 }
  | first :: _ =>
    let symbol := first.symbol
    let post_count_weight := get_post_count_weight (unique_posts_count mentions)
    let num := weighted_numerator agg symbol post_count_weight reference_time mentions
    let den := weighted_denominator agg symbol post_count_weight reference_time mentions
    let weighted_avg : ℝ := if 0 < den then num / den else 0.0
    let final_sentiment : ℝ :=
      max (MIN_SENTIMENT_SCORE : ℝ) (min (MAX_SENTIMENT_SCORE : ℝ) weighted_avg)
    { symbol := symbol
      final_sentiment := final_sentiment
      sentiment_label := _determine_sentiment_label final_sentiment
      confidence := _calculate_confidence mentions den
      total_mentions := mentions.length }

/-- One step of the `defaultdict(list)` grouping loop in
`aggregate_multiple_stocks`: append the mention to its symbol's bucket,
creating the bucket at the end on first touch (dict insertion order). -/
def addMention (acc : List (String × List SentimentMention))
    (m : SentimentMention) : List (String × List SentimentMention) :=
  if acc.any (fun p => p.1 == m.symbol) then
    acc.map (fun p => if p.1 == m.symbol then (p.1, p.2 ++ [m]) else p)
  else
    acc ++ [(m.symbol, [m])]

/-- The `mentions_by_stock` dict after the grouping loop. -/
def mentions_by_stock (all_mentions : List SentimentMention) :
    List (String × List SentimentMention) :=
  all_mentions.foldl addMention []

/-- Lookup of a symbol's bucket in the grouping dict. -/
def lookupGroup (acc : List (String × List SentimentMention)) (s : String) :
    Option (List SentimentMention) :=
  (acc.find? (fun p => p.1 == s)).map Prod.snd

/-- `aggregate_multiple_stocks`: group by symbol, aggregate each group. -/
noncomputable def aggregate_multiple_stocks (agg : StockSentimentAggregator)
    (all_mentions : List SentimentMention) (reference_time : ℚ) :
    List (String × AggregatedSentiment) :=
  (mentions_by_stock all_mentions).map
    (fun p => (p.1, aggregate_stock_sentiment agg p.2 reference_time))

/-- Lookup of a symbol's result in the batch output. -/
noncomputable def lookupResult (results : List (String × AggregatedSentiment))
    (s : String) : Option AggregatedSentiment :=
  (results.find? (fun p => p.1 == s)).map Prod.snd

/-- Follows the spec's words (section 3, `post_identifier`): the unique post
count is the number of distinct `post_identifier` values, or the observation
count when post identifiers are absent; the only per-post identifier carried
by a `SentimentMention` is `post_url`. -/
def unique_posts_count_spec (mentions : List SentimentMention) : ℕ :=
  let ids : List String := mentions.filterMap (fun m => m.post_url)
  if ids.isEmpty then mentions.length else ids.dedup.length

/-- Follows the claim's words (spec section 4.2 step 7): confidence is
clamp(0.4·min(1, W/n) + 0.4·c + 0.2·min(1, n/5), 0, 1) with c = 0.8 for a
single observation and 1 − min(1, stdev/2) otherwise. -/
noncomputable def confidence_spec (mentions : List SentimentMention)
    (W : ℝ) : ℝ :=
  let n : ℕ := mentions.length
  let weight_confidence : ℝ := min 1 (W / (n : ℝ))
  let sentiments : List ℚ := mentions.map (fun m => m.raw_sentiment)
  let consensus_confidence : ℝ :=
    if n = 1 then 0.8
    else
      let mean_sentiment : ℚ := sentiments.sum / (sentiments.length : ℚ)
      let variance : ℚ :=
        (sentiments.map (fun s => (s - mean_sentiment) ^ 2)).sum /
          (sentiments.length : ℚ)
      let stdev : ℝ := Real.sqrt (variance : ℝ)
      1 - min 1 (stdev / 2)
  let sample_confidence : ℝ := min 1 ((n : ℝ) / 5)
  max 0 (min 1
    (0.4 * weight_confidence + 0.4 * consensus_confidence +
      0.2 * sample_confidence))

/-- The fields of an observation that the spec lists as determining the
result: symbol, raw sentiment, timestamp and source (text and post_url are
excluded). -/
def MentionObsEq (a b : SentimentMention) : Prop :=
  a.symbol = b.symbol ∧ a.raw_sentiment = b.raw_sentiment ∧
    a.timestamp = b.timestamp ∧ a.source = b.source

/-- A concrete observation for the ambiguous symbol "ON" (table weight 0.2). -/
def mON : SentimentMention :=
  { symbol := "ON", raw_sentiment := 0, timestamp := 0,
    source := "reddit", text := "" }

/-- A concrete observation for the unambiguous symbol "AAPL" (weight 1). -/
def mAAPL : SentimentMention :=
  { symbol := "AAPL", raw_sentiment := 0, timestamp := 0,
    source := "reddit", text := "" }

/-- A concrete AAPL observation at the reference time. -/
def mA1 : SentimentMention :=
  { symbol := "AAPL", raw_sentiment := 1/2, timestamp := 0,
    source := "reddit", text := "a" }

/-- A concrete AAPL observation one hour before the reference time. -/
def mA2 : SentimentMention :=
  { symbol := "AAPL", raw_sentiment := -1/4, timestamp := -3600,
    source := "reddit", text := "b" }

lemma aggregate_cons_final_shape (agg : StockSentimentAggregator)
    (first : SentimentMention) (rest : List SentimentMention) (r : ℚ) :
    ∃ x : ℝ, (aggregate_stock_sentiment agg (first :: rest) r).final_sentiment =
      max (MIN_SENTIMENT_SCORE : ℝ) (min (MAX_SENTIMENT_SCORE : ℝ) x) :=
  ⟨_, rfl⟩

lemma aggregate_cons_confidence (agg : StockSentimentAggregator)
    (first : SentimentMention) (rest : List SentimentMention) (r : ℚ) :
    (aggregate_stock_sentiment agg (first :: rest) r).confidence =
      _calculate_confidence (first :: rest)
        (weighted_denominator agg first.symbol
          (get_post_count_weight (unique_posts_count (first :: rest))) r
          (first :: rest)) :=
  rfl

lemma aggregate_cons_label (agg : StockSentimentAggregator)
    (first : SentimentMention) (rest : List SentimentMention) (r : ℚ) :
    (aggregate_stock_sentiment agg (first :: rest) r).sentiment_label =
      _determine_sentiment_label
        ((aggregate_stock_sentiment agg (first :: rest) r).final_sentiment) :=
  rfl

lemma confidence_cons_shape (first : SentimentMention)
    (rest : List SentimentMention) (W : ℝ) :
    ∃ x : ℝ, _calculate_confidence (first :: rest) W = max 0.0 (min 1.0 x) :=
  ⟨_, rfl⟩

lemma confidence_bounds (mentions : List SentimentMention) (W : ℝ) :
    0 ≤ _calculate_confidence mentions W ∧ _calculate_confidence mentions W ≤ 1 := by
  cases mentions with
  | nil =>
      constructor <;> norm_num [_calculate_confidence]
  | cons first rest =>
      obtain ⟨x, hx⟩ := confidence_cons_shape first rest W
      rw [hx]
      constructor
      · exact le_trans (by norm_num) (le_max_left 0.0 (min 1.0 x))
      · exact max_le (by norm_num) (le_trans (min_le_left 1.0 x) (by norm_num))

/-- Claim C1 (amended): for the empty observation list the aggregator
returns final_sentiment 0, sentiment_label "neutral" (lower case, unlike
the capitalised labels of the threshold ladder), confidence 0 and zero
total observations. -/
theorem C1_empty_aggregation (agg : StockSentimentAggregator) (r : ℚ) :
    (aggregate_stock_sentiment agg [] r).final_sentiment = 0 ∧
    (aggregate_stock_sentiment agg [] r).sentiment_label = "neutral" ∧
    (aggregate_stock_sentiment agg [] r).confidence = 0 ∧
    (aggregate_stock_sentiment agg [] r).total_mentions = 0 := by
  refine ⟨?_, rfl, ?_, rfl⟩ <;> norm_num [aggregate_stock_sentiment]

/-- Claim C1, counterexample to the claimed label: on the empty list the
code returns the label "neutral", not "Neutral" as claimed. -/
theorem C1_empty_label_counterexample :
    (aggregate_stock_sentiment defaultAggregator [] 0).sentiment_label ≠
      "Neutral" := by
  have h : (aggregate_stock_sentiment defaultAggregator [] 0).sentiment_label =
      "neutral" := rfl
  rw [h]
  decide

/-- Claim C6: for every observation list (empty or not, with any rational
raw sentiment values) the aggregation result has final_sentiment in
[-1, 1] and confidence in [0, 1]. -/
theorem C6_output_bounds (agg : StockSentimentAggregator)
    (mentions : List SentimentMention) (r : ℚ) :
    -1 ≤ (aggregate_stock_sentiment agg mentions r).final_sentiment ∧
    (aggregate_stock_sentiment agg mentions r).final_sentiment ≤ 1 ∧
    0 ≤ (aggregate_stock_sentiment agg mentions r).confidence ∧
    (aggregate_stock_sentiment agg mentions r).confidence ≤ 1 := by
  cases mentions with
  | nil =>
      refine ⟨?_, ?_, ?_, ?_⟩ <;> norm_num [aggregate_stock_sentiment]
  | cons first rest =>
      obtain ⟨x, hx⟩ := aggregate_cons_final_shape agg first rest r
      have hmin : (MIN_SENTIMENT_SCORE : ℝ) = -1 := by
        norm_num [MIN_SENTIMENT_SCORE]
      have hmax : (MAX_SENTIMENT_SCORE : ℝ) = 1 := by
        norm_num [MAX_SENTIMENT_SCORE]
      have hc := confidence_bounds (first :: rest)
        (weighted_denominator agg first.symbol
          (get_post_count_weight (unique_posts_count (first :: rest))) r
          (first :: rest))
      refine ⟨?_, ?_, ?_, ?_⟩
      · rw [hx, hmin]
        exact le_max_left _ _
      · rw [hx, hmin, hmax]
        exact max_le (by norm_num) (min_le_left _ _)
      · rw [aggregate_cons_confidence]
        exact hc.1
      · rw [aggregate_cons_confidence]
        exact hc.2

/-- Claim C8: the sentiment label is determined from final_sentiment by the
threshold ladder (at least 0.3 strong bullish, else at least 0.1 weak
bullish, else at most -0.3 strong bearish, else at most -0.1 weak bearish,
else neutral), with the stated boundary values, and for every non-empty
observation list the aggregated label is the ladder applied to the
aggregated final sentiment. -/
theorem C8_label_thresholds (x : ℝ) (agg : StockSentimentAggregator)
    (mentions : List SentimentMention) (r : ℚ) :
    (0.3 ≤ x → _determine_sentiment_label x = "Strong Bullish") ∧
    (0.1 ≤ x → x < 0.3 → _determine_sentiment_label x = "Weak Bullish") ∧
    (x ≤ -0.3 → _determine_sentiment_label x = "Strong Bearish") ∧
    (-0.3 < x → x ≤ -0.1 → _determine_sentiment_label x = "Weak Bearish") ∧
    (-0.1 < x → x < 0.1 → _determine_sentiment_label x = "Neutral") ∧
    _determine_sentiment_label (0.3 : ℝ) = "Strong Bullish" ∧
    _determine_sentiment_label (0.2999 : ℝ) = "Weak Bullish" ∧
    _determine_sentiment_label (-0.1 : ℝ) = "Weak Bearish" ∧
    _determine_sentiment_label (0 : ℝ) = "Neutral" ∧
    (mentions ≠ [] →
      (aggregate_stock_sentiment agg mentions r).sentiment_label =
        _determine_sentiment_label
          ((aggregate_stock_sentiment agg mentions r).final_sentiment)) := by
  refine ⟨?_, ?_, ?_, ?_, ?_, ?_, ?_, ?_, ?_, ?_⟩
  · intro h
    rw [_determine_sentiment_label, if_pos h]
  · intro h1 h2
    rw [_determine_sentiment_label, if_neg (not_le.mpr h2), if_pos h1]
  · intro h
    rw [_determine_sentiment_label, if_neg (by linarith), if_neg (by linarith),
      if_pos h]
  · intro h1 h2
    rw [_determine_sentiment_label, if_neg (by linarith), if_neg (by linarith),
      if_neg (not_le.mpr h1), if_pos h2]
  · intro h1 h2
    rw [_determine_sentiment_label, if_neg (by linarith), if_neg (by linarith),
      if_neg (by linarith), if_neg (by linarith)]
  · norm_num [_determine_sentiment_label]
  · norm_num [_determine_sentiment_label]
  · norm_num [_determine_sentiment_label]
  · norm_num [_determine_sentiment_label]
  · intro h
    match mentions, h with
    | first :: rest, _ => exact aggregate_cons_label agg first rest r

/-- Witness for C8 at concrete scores: each threshold hypothesis is
discharged at an explicit input. -/
theorem C8_label_thresholds_witness :
    _determine_sentiment_label (0.3 : ℝ) = "Strong Bullish" ∧
    _determine_sentiment_label (0.2 : ℝ) = "Weak Bullish" ∧
    _determine_sentiment_label (-0.5 : ℝ) = "Strong Bearish" ∧
    _determine_sentiment_label (-0.2 : ℝ) = "Weak Bearish" ∧
    _determine_sentiment_label (0.05 : ℝ) = "Neutral" ∧
    (aggregate_stock_sentiment defaultAggregator
        [{ symbol := "AAPL", raw_sentiment := 0, timestamp := 0,
           source := "reddit", text := "" }] 0).sentiment_label =
      _determine_sentiment_label
        ((aggregate_stock_sentiment defaultAggregator
          [{ symbol := "AAPL", raw_sentiment := 0, timestamp := 0,
             source := "reddit", text := "" }] 0).final_sentiment) :=
  ⟨(C8_label_thresholds 0.3 defaultAggregator [] 0).1 (by norm_num),
   (C8_label_thresholds 0.2 defaultAggregator [] 0).2.1 (by norm_num) (by norm_num),
   (C8_label_thresholds (-0.5) defaultAggregator [] 0).2.2.1 (by norm_num),
   (C8_label_thresholds (-0.2) defaultAggregator [] 0).2.2.2.1 (by norm_num) (by norm_num),
   (C8_label_thresholds 0.05 defaultAggregator [] 0).2.2.2.2.1 (by norm_num) (by norm_num),
   (C8_label_thresholds 0 defaultAggregator
      [{ symbol := "AAPL", raw_sentiment := 0, timestamp := 0,
         source := "reddit", text := "" }] 0).2.2.2.2.2.2.2.2.2
     (by simp)⟩

lemma max_zero_one_sub (a : ℝ) : max 0 (1 - a) = 1 - min 1 a := by
  rcases le_total a 1 with h | h
  · rw [max_eq_right (by linarith), min_eq_right h]
  · rw [max_eq_left (by linarith), min_eq_left h]
    ring

/-- Claim C2, counterexample: two observations originating from the same
post (equal post_url) still count as two unique posts, because the code
inspects a nonexistent post_id attribute and always falls back to the
observation count. -/
theorem C2_unique_posts_counterexample :
    unique_posts_count
        [{ symbol := "AAPL", raw_sentiment := 0, timestamp := 0,
           source := "reddit", text := "a", post_url := some "u" },
         { symbol := "AAPL", raw_sentiment := 0, timestamp := 0,
           source := "reddit", text := "b", post_url := some "u" }] = 2 ∧
    unique_posts_count_spec
        [{ symbol := "AAPL", raw_sentiment := 0, timestamp := 0,
           source := "reddit", text := "a", post_url := some "u" },
         { symbol := "AAPL", raw_sentiment := 0, timestamp := 0,
           source := "reddit", text := "b", post_url := some "u" }] = 1 :=
  ⟨rfl, rfl⟩

/-- Claim C2 (amended): the unique post count used for the post-diversity
weight always equals the number of observations; distinct post_url values
are never consulted (the attribute the code checks, post_id, does not exist
on the observation type), so the spec's distinct-identifier rule is only
matched when post identifiers are absent. -/
theorem C2_unique_posts (l : List SentimentMention) :
    unique_posts_count l = l.length ∧
    ((∀ m ∈ l, m.post_url = none) →
      unique_posts_count l = unique_posts_count_spec l) := by
  refine ⟨rfl, fun h => ?_⟩
  have hnil : l.filterMap (fun m => m.post_url) = [] := by
    rw [List.filterMap_eq_nil_iff]
    exact h
  simp [unique_posts_count_spec, unique_posts_count, hnil]

/-- Witness for C2 (amended) on a concrete list without post identifiers. -/
theorem C2_unique_posts_witness :
    (∀ m ∈ ([{ symbol := "AAPL", raw_sentiment := 0, timestamp := 0,
               source := "reddit", text := "a" }] : List SentimentMention),
        m.post_url = none) ∧
    unique_posts_count
        [{ symbol := "AAPL", raw_sentiment := 0, timestamp := 0,
           source := "reddit", text := "a" }] =
      unique_posts_count_spec
        [{ symbol := "AAPL", raw_sentiment := 0, timestamp := 0,
           source := "reddit", text := "a" }] := by
  constructor
  · simp
  · exact (C2_unique_posts _).2 (by simp)

/-- Claim C10: for every non-empty observation list with combined weight W,
the confidence equals clamp(0.4 min(1, W/n) + 0.4 c + 0.2 min(1, n/5), 0, 1)
with c = 0.8 for a single observation and 1 - min(1, stdev/2) otherwise. -/
theorem C10_confidence_formula (mentions : List SentimentMention) (W : ℝ)
    (h : mentions ≠ []) :
    _calculate_confidence mentions W = confidence_spec mentions W := by
  match mentions, h with
  | first :: rest, _ =>
    simp only [_calculate_confidence, confidence_spec, List.length_map]
    congr 1
    · norm_num
    congr 1
    · norm_num
    split_ifs with h1
    · norm_num
      ring
    · norm_num
      rw [max_zero_one_sub]
      ring

/-- Witness for C10 on a concrete single-observation list. -/
theorem C10_confidence_formula_witness :
    ([{ symbol := "AAPL", raw_sentiment := 1/2, timestamp := 0,
        source := "reddit", text := "" }] : List SentimentMention) ≠ [] ∧
    _calculate_confidence
        [{ symbol := "AAPL", raw_sentiment := 1/2, timestamp := 0,
           source := "reddit", text := "" }] 0 =
      confidence_spec
        [{ symbol := "AAPL", raw_sentiment := 1/2, timestamp := 0,
           source := "reddit", text := "" }] 0 :=
  ⟨by simp, C10_confidence_formula _ 0 (by simp)⟩

/-- Claim C9: the temporal-decay weight equals exp(-lambda times the
non-negatively clipped elapsed hours); it is always strictly positive, at
most 1 for a non-negative decay rate, exactly 1 for a timestamp at or after
the reference time, and strictly decreasing in elapsed time for a positive
decay rate. -/
theorem C9_time_decay_weight (agg : StockSentimentAggregator)
    (t r t1 t2 : ℚ) :
    calculate_time_weight agg t r =
      Real.exp (-(agg.decay_lambda : ℝ) * ((max 0 ((r - t) / 3600) : ℚ) : ℝ)) ∧
    0 < calculate_time_weight agg t r ∧
    (0 ≤ agg.decay_lambda → calculate_time_weight agg t r ≤ 1) ∧
    (r ≤ t → calculate_time_weight agg t r = 1) ∧
    (0 < agg.decay_lambda → t2 < t1 → t1 ≤ r →
      calculate_time_weight agg t2 r < calculate_time_weight agg t1 r) := by
  refine ⟨rfl, Real.exp_pos _, ?_, ?_, ?_⟩
  · intro hl
    simp only [calculate_time_weight]
    rw [show (1 : ℝ) = Real.exp 0 from (Real.exp_zero).symm]
    apply Real.exp_le_exp.mpr
    have h1 : (0 : ℚ) ≤ max 0 ((r - t) / 3600) := le_max_left _ _
    have h2 : (0 : ℝ) ≤ ((max 0 ((r - t) / 3600) : ℚ) : ℝ) := by exact_mod_cast h1
    have h3 : (0 : ℝ) ≤ (agg.decay_lambda : ℝ) := by exact_mod_cast hl
    rw [neg_mul]
    exact neg_nonpos_of_nonneg (mul_nonneg h3 h2)
  · intro h
    simp only [calculate_time_weight]
    have hq : (r - t) / 3600 ≤ (0 : ℚ) := by linarith
    rw [max_eq_left hq]
    norm_num
  · intro hl hlt hle
    simp only [calculate_time_weight]
    apply Real.exp_lt_exp.mpr
    have e1 : max 0 ((r - t1) / 3600) = (r - t1) / 3600 :=
      max_eq_right (by linarith)
    have e2 : max 0 ((r - t2) / 3600) = (r - t2) / 3600 :=
      max_eq_right (by linarith)
    rw [e1, e2]
    have hl' : (0 : ℝ) < (agg.decay_lambda : ℝ) := by exact_mod_cast hl
    have hq : ((r - t1) / 3600 : ℚ) < (r - t2) / 3600 := by linarith
    have hq' : (((r - t1) / 3600 : ℚ) : ℝ) < (((r - t2) / 3600 : ℚ) : ℝ) := by
      exact_mod_cast hq
    have := mul_lt_mul_of_pos_left hq' hl'
    linarith

/-- Witness for C9 on the default aggregator (decay rate 0.1): the bound,
the future-timestamp case and strict decay are exercised at concrete
timestamps. -/
theorem C9_time_decay_weight_witness :
    (0 ≤ defaultAggregator.decay_lambda ∧
      calculate_time_weight defaultAggregator 0 0 ≤ 1) ∧
    ((0 : ℚ) ≤ 7200 ∧ calculate_time_weight defaultAggregator 7200 0 = 1) ∧
    (0 < defaultAggregator.decay_lambda ∧ (-3600 : ℚ) < 0 ∧ (0 : ℚ) ≤ 0 ∧
      calculate_time_weight defaultAggregator (-3600) 0 <
        calculate_time_weight defaultAggregator 0 0) := by
  have hl0 : 0 ≤ defaultAggregator.decay_lambda := by
    norm_num [defaultAggregator, SENTIMENT_TIME_DECAY_LAMBDA]
  have hlp : 0 < defaultAggregator.decay_lambda := by
    norm_num [defaultAggregator, SENTIMENT_TIME_DECAY_LAMBDA]
  refine ⟨⟨hl0, ?_⟩, ⟨by norm_num, ?_⟩, hlp, by norm_num, le_refl 0, ?_⟩
  · exact (C9_time_decay_weight defaultAggregator 0 0 0 0).2.2.1 hl0
  · exact (C9_time_decay_weight defaultAggregator 7200 0 0 0).2.2.2.1
      (by norm_num)
  · exact (C9_time_decay_weight defaultAggregator 0 0 0 (-3600)).2.2.2.2
      hlp (by norm_num) (le_refl 0)

lemma dictGet_pos_of_contains (d : List (String × ℚ)) (k : String)
    (hpos : ∀ p ∈ d, 0 < p.2) (h : dictContains d k = true) :
    0 < dictGet d k := by
  rw [dictContains, List.any_eq_true] at h
  obtain ⟨p, hp, hpk⟩ := h
  have hs : (d.find? (fun p => p.1 == k)).isSome :=
    List.find?_isSome.mpr ⟨p, hp, hpk⟩
  obtain ⟨q, hq⟩ := Option.isSome_iff_exists.mp hs
  rw [dictGet, dictFind, hq]
  simpa using hpos q (List.mem_of_find?_eq_some hq)

lemma dictGetD_pos (d : List (String × ℚ)) (k : String) (fallback : ℚ)
    (hpos : ∀ p ∈ d, 0 < p.2) (hfb : 0 < fallback) :
    0 < dictGetD d k fallback := by
  rw [dictGetD, dictFind]
  cases hq : d.find? (fun p => p.1 == k) with
  | none => simpa using hfb
  | some q => simpa using hpos q (List.mem_of_find?_eq_some hq)

lemma symbol_table_pos : ∀ p ∈ COMMON_WORD_SYMBOL_WEIGHTS, 0 < p.2 := by
  norm_num [COMMON_WORD_SYMBOL_WEIGHTS, List.forall_mem_cons]

lemma symbol_table_default :
    dictGet COMMON_WORD_SYMBOL_WEIGHTS "default" = 1 := by
  simp only [dictGet, dictFind, COMMON_WORD_SYMBOL_WEIGHTS]
  simp +decide [List.find?]
  norm_num

lemma get_symbol_weight_pos (s : String) : 0 < get_symbol_weight s := by
  rw [get_symbol_weight]
  apply dictGetD_pos _ _ _ symbol_table_pos
  rw [symbol_table_default]
  norm_num

lemma source_pattern_hit_mem (agg : StockSentimentAggregator) (source : String)
    (p : String × ℚ) (h : source_pattern_hit agg source = some p) :
    p ∈ agg.source_weights := by
  rw [source_pattern_hit] at h
  by_cases hs : source.startsWith "reddit/r/"
  · rw [if_pos hs] at h
    exact List.mem_of_find?_eq_some h
  · rw [if_neg hs] at h
    cases h

lemma get_source_weight_pos (agg : StockSentimentAggregator)
    (hpos : ∀ p ∈ agg.source_weights, 0 < p.2)
    (hdef : dictContains agg.source_weights "default" = true)
    (source : String) : 0 < get_source_weight agg source := by
  by_cases h1 : dictContains agg.source_weights source = true
  · rw [get_source_weight, if_pos h1]
    exact dictGet_pos_of_contains _ _ hpos h1
  · rw [get_source_weight, if_neg h1]
    cases hm : source_pattern_hit agg source with
    | some p => exact hpos p (source_pattern_hit_mem agg source p hm)
    | none =>
        show 0 < if source.startsWith "reddit" = true then
            dictGetD agg.source_weights "reddit" (dictGet agg.source_weights "default")
          else dictGet agg.source_weights "default"
        split_ifs with h2
        · exact dictGetD_pos _ _ _ hpos
            (dictGet_pos_of_contains _ _ hpos hdef)
        · exact dictGet_pos_of_contains _ _ hpos hdef

lemma time_weight_pos (agg : StockSentimentAggregator) (t r : ℚ) :
    0 < calculate_time_weight agg t r :=
  Real.exp_pos _

lemma pcw_one : get_post_count_weight 1 = 1 := by
  rw [get_post_count_weight, if_pos (le_refl 1)]
  norm_num [MIN_POST_COUNT_WEIGHT]

lemma aggregate_cons_final (agg : StockSentimentAggregator)
    (first : SentimentMention) (rest : List SentimentMention) (r : ℚ) :
    (aggregate_stock_sentiment agg (first :: rest) r).final_sentiment =
      max (MIN_SENTIMENT_SCORE : ℝ) (min (MAX_SENTIMENT_SCORE : ℝ)
        (if 0 < weighted_denominator agg first.symbol
              (get_post_count_weight (unique_posts_count (first :: rest))) r
              (first :: rest)
         then weighted_numerator agg first.symbol
                (get_post_count_weight (unique_posts_count (first :: rest))) r
                (first :: rest) /
              weighted_denominator agg first.symbol
                (get_post_count_weight (unique_posts_count (first :: rest))) r
                (first :: rest)
         else 0.0)) :=
  rfl

/-- Claim C7: aggregating a single observation with raw sentiment in
[-1, 1] returns exactly that raw sentiment, for any decay rate and any
positive source-weight table containing a "default" entry (symbol and
post-diversity weights are positive by construction). -/
theorem C7_single_observation_identity (agg : StockSentimentAggregator)
    (o : SentimentMention) (r : ℚ)
    (hpos : ∀ p ∈ agg.source_weights, 0 < p.2)
    (hdef : dictContains agg.source_weights "default" = true)
    (hlo : -1 ≤ o.raw_sentiment) (hhi : o.raw_sentiment ≤ 1) :
    (aggregate_stock_sentiment agg [o] r).final_sentiment =
      (o.raw_sentiment : ℝ) := by
  have hpcw : get_post_count_weight (unique_posts_count [o]) = 1 := pcw_one
  have hw : 0 < total_weight agg o.symbol
      (get_post_count_weight (unique_posts_count [o])) r o := by
    rw [total_weight, hpcw, mul_one]
    have h1 : (0 : ℝ) < (get_source_weight agg o.source : ℝ) := by
      exact_mod_cast get_source_weight_pos agg hpos hdef o.source
    have h2 : (0 : ℝ) < (get_symbol_weight o.symbol : ℝ) := by
      exact_mod_cast get_symbol_weight_pos o.symbol
    exact mul_pos (mul_pos (time_weight_pos agg o.timestamp r) h1) h2
  have hden : weighted_denominator agg o.symbol
      (get_post_count_weight (unique_posts_count [o])) r [o] =
      total_weight agg o.symbol
        (get_post_count_weight (unique_posts_count [o])) r o := by
    simp [weighted_denominator]
  have hnum : weighted_numerator agg o.symbol
      (get_post_count_weight (unique_posts_count [o])) r [o] =
      (o.raw_sentiment : ℝ) * total_weight agg o.symbol
        (get_post_count_weight (unique_posts_count [o])) r o := by
    simp [weighted_numerator]
  rw [aggregate_cons_final agg o [] r, hden, hnum, if_pos hw,
    mul_div_cancel_right₀ _ (ne_of_gt hw)]
  have hminq : ((MIN_SENTIMENT_SCORE : ℚ) : ℝ) = -1 := by
    norm_num [MIN_SENTIMENT_SCORE]
  have hmaxq : ((MAX_SENTIMENT_SCORE : ℚ) : ℝ) = 1 := by
    norm_num [MAX_SENTIMENT_SCORE]
  rw [hminq, hmaxq, min_eq_right (by exact_mod_cast hhi),
    max_eq_right (by exact_mod_cast hlo)]

/-- Witness for C7: a concrete single observation with raw sentiment 1/2
aggregates to exactly 1/2 under the default configuration. -/
theorem C7_single_observation_identity_witness :
    (∀ p ∈ defaultAggregator.source_weights, 0 < p.2) ∧
    dictContains defaultAggregator.source_weights "default" = true ∧
    (-1 : ℚ) ≤ 1/2 ∧ (1/2 : ℚ) ≤ 1 ∧
    (aggregate_stock_sentiment defaultAggregator
        [{ symbol := "AAPL", raw_sentiment := 1/2, timestamp := 0,
           source := "reddit", text := "" }] 0).final_sentiment =
      ((1/2 : ℚ) : ℝ) := by
  have hpos : ∀ p ∈ defaultAggregator.source_weights, 0 < p.2 := by
    norm_num [defaultAggregator, SOURCE_WEIGHTS, List.forall_mem_cons]
  have hdef : dictContains defaultAggregator.source_weights "default" = true := by
    decide
  exact ⟨hpos, hdef, by norm_num, by norm_num,
    C7_single_observation_identity defaultAggregator _ 0 hpos hdef
      (by norm_num) (by norm_num)⟩


lemma forall₂_map_eq {α β : Type} {R : α → α → Prop} {g : α → β}
    (hg : ∀ a b, R a b → g a = g b) :
    ∀ {l₁ l₂ : List α}, List.Forall₂ R l₁ l₂ → l₁.map g = l₂.map g := by
  intro l₁ l₂ h
  induction h with
  | nil => rfl
  | cons hab _ ih => simp [hg _ _ hab, ih]

lemma aggregate_cons_total (agg : StockSentimentAggregator)
    (first : SentimentMention) (rest : List SentimentMention) (r : ℚ) :
    (aggregate_stock_sentiment agg (first :: rest) r).total_mentions =
      (first :: rest).length :=
  rfl

lemma confidence_congr (l₁ l₂ : List SentimentMention) (W : ℝ)
    (hmap : l₁.map (fun m => m.raw_sentiment) =
      l₂.map (fun m => m.raw_sentiment)) :
    _calculate_confidence l₁ W = _calculate_confidence l₂ W := by
  have hlen : l₁.length = l₂.length := by
    have h := congrArg List.length hmap
    simpa using h
  cases l₁ with
  | nil =>
      cases l₂ with
      | nil => rfl
      | cons b t₂ => simp at hlen
  | cons a t₁ =>
      cases l₂ with
      | nil => simp at hlen
      | cons b t₂ =>
          simp only [_calculate_confidence]
          rw [hmap, hlen]

/-- Claim C3: aggregation is deterministic in the listed observation data:
two lists agreeing pointwise on symbol, raw sentiment, timestamp and source
(but possibly differing in text or post_url) produce identical
final_sentiment, sentiment_label, confidence and total_observations, at the
same reference time. -/
theorem C3_deterministic (agg : StockSentimentAggregator) (r : ℚ)
    (l₁ l₂ : List SentimentMention) (h : List.Forall₂ MentionObsEq l₁ l₂) :
    (aggregate_stock_sentiment agg l₁ r).final_sentiment =
      (aggregate_stock_sentiment agg l₂ r).final_sentiment ∧
    (aggregate_stock_sentiment agg l₁ r).sentiment_label =
      (aggregate_stock_sentiment agg l₂ r).sentiment_label ∧
    (aggregate_stock_sentiment agg l₁ r).confidence =
      (aggregate_stock_sentiment agg l₂ r).confidence ∧
    (aggregate_stock_sentiment agg l₁ r).total_mentions =
      (aggregate_stock_sentiment agg l₂ r).total_mentions := by
  cases h with
  | nil => exact ⟨rfl, rfl, rfl, rfl⟩
  | @cons a b t₁ t₂ hab htail =>
    have hfull : List.Forall₂ MentionObsEq (a :: t₁) (b :: t₂) :=
      List.Forall₂.cons hab htail
    have hlen : (a :: t₁).length = (b :: t₂).length := hfull.length_eq
    have hsym : a.symbol = b.symbol := hab.1
    have hpcw : get_post_count_weight (unique_posts_count (a :: t₁)) =
        get_post_count_weight (unique_posts_count (b :: t₂)) := by
      rw [unique_posts_count, unique_posts_count, hlen]
    have htw : ∀ x y, MentionObsEq x y →
        total_weight agg b.symbol
            (get_post_count_weight (unique_posts_count (b :: t₂))) r x =
          total_weight agg b.symbol
            (get_post_count_weight (unique_posts_count (b :: t₂))) r y := by
      intro x y hxy
      rw [total_weight, total_weight, hxy.2.2.1, hxy.2.2.2]
    have hden : weighted_denominator agg a.symbol
        (get_post_count_weight (unique_posts_count (a :: t₁))) r (a :: t₁) =
        weighted_denominator agg b.symbol
          (get_post_count_weight (unique_posts_count (b :: t₂))) r (b :: t₂) := by
      rw [weighted_denominator, weighted_denominator, hsym, hpcw]
      exact congrArg List.sum (forall₂_map_eq htw hfull)
    have hnum : weighted_numerator agg a.symbol
        (get_post_count_weight (unique_posts_count (a :: t₁))) r (a :: t₁) =
        weighted_numerator agg b.symbol
          (get_post_count_weight (unique_posts_count (b :: t₂))) r (b :: t₂) := by
      rw [weighted_numerator, weighted_numerator, hsym, hpcw]
      refine congrArg List.sum (forall₂_map_eq ?_ hfull)
      intro x y hxy
      rw [hxy.2.1, htw x y hxy]
    have hmapraw : (a :: t₁).map (fun m => m.raw_sentiment) =
        (b :: t₂).map (fun m => m.raw_sentiment) := by
      refine forall₂_map_eq ?_ hfull
      intro x y hxy
      exact hxy.2.1
    have hfin : (aggregate_stock_sentiment agg (a :: t₁) r).final_sentiment =
        (aggregate_stock_sentiment agg (b :: t₂) r).final_sentiment := by
      rw [aggregate_cons_final, aggregate_cons_final, hden, hnum]
    refine ⟨hfin, ?_, ?_, ?_⟩
    · rw [aggregate_cons_label, aggregate_cons_label, hfin]
    · rw [aggregate_cons_confidence, aggregate_cons_confidence, hden]
      exact confidence_congr _ _ _ hmapraw
    · rw [aggregate_cons_total, aggregate_cons_total, hlen]


lemma confidence_perm (l₁ l₂ : List SentimentMention) (W : ℝ)
    (hp : l₁.Perm l₂) :
    _calculate_confidence l₁ W = _calculate_confidence l₂ W := by
  cases l₁ with
  | nil =>
      cases l₂ with
      | nil => rfl
      | cons b t₂ => simpa using hp.length_eq
  | cons a t₁ =>
      cases l₂ with
      | nil => simpa using hp.length_eq
      | cons b t₂ =>
          have hlen : (a :: t₁).length = (b :: t₂).length := hp.length_eq
          have hpermS : ((a :: t₁).map (fun m => m.raw_sentiment)).Perm
              ((b :: t₂).map (fun m => m.raw_sentiment)) := hp.map _
          have hlenS := hpermS.length_eq
          have hsumS := hpermS.sum_eq
          simp only [_calculate_confidence]
          rw [hlen, hlenS, hsumS]
          rw [List.Perm.sum_eq (hpermS.map
            (fun s => (s - ((b :: t₂).map (fun m => m.raw_sentiment)).sum /
              (((b :: t₂).map (fun m => m.raw_sentiment)).length : ℚ)) ^ 2))]

/-- Claim C4 (amended): for observation lists whose observations all bear
the same symbol, as the single-symbol contract assumes, every permutation
yields the same final_sentiment, sentiment_label, confidence and
total_observations at the same reference time. -/
theorem C4_order_independence (agg : StockSentimentAggregator) (r : ℚ)
    (l₁ l₂ : List SentimentMention) (hp : l₁.Perm l₂)
    (hsym : ∀ x ∈ l₁, ∀ y ∈ l₁, x.symbol = y.symbol) :
    (aggregate_stock_sentiment agg l₁ r).final_sentiment =
      (aggregate_stock_sentiment agg l₂ r).final_sentiment ∧
    (aggregate_stock_sentiment agg l₁ r).sentiment_label =
      (aggregate_stock_sentiment agg l₂ r).sentiment_label ∧
    (aggregate_stock_sentiment agg l₁ r).confidence =
      (aggregate_stock_sentiment agg l₂ r).confidence ∧
    (aggregate_stock_sentiment agg l₁ r).total_mentions =
      (aggregate_stock_sentiment agg l₂ r).total_mentions := by
  cases l₁ with
  | nil =>
      obtain rfl : l₂ = [] := hp.symm.eq_nil
      exact ⟨rfl, rfl, rfl, rfl⟩
  | cons a t₁ =>
      cases l₂ with
      | nil => exact absurd hp.eq_nil (by simp)
      | cons b t₂ =>
          have hb1 : b ∈ a :: t₁ := hp.mem_iff.mpr (List.mem_cons_self b t₂)
          have hsymab : a.symbol = b.symbol :=
            hsym a (List.mem_cons_self a t₁) b hb1
          have hlen : (a :: t₁).length = (b :: t₂).length := hp.length_eq
          have hpcw : get_post_count_weight (unique_posts_count (a :: t₁)) =
              get_post_count_weight (unique_posts_count (b :: t₂)) := by
            rw [unique_posts_count, unique_posts_count, hlen]
          have hden : weighted_denominator agg a.symbol
              (get_post_count_weight (unique_posts_count (a :: t₁))) r
                (a :: t₁) =
              weighted_denominator agg b.symbol
                (get_post_count_weight (unique_posts_count (b :: t₂))) r
                (b :: t₂) := by
            rw [hsymab, hpcw, weighted_denominator, weighted_denominator]
            exact (hp.map _).sum_eq
          have hnum : weighted_numerator agg a.symbol
              (get_post_count_weight (unique_posts_count (a :: t₁))) r
                (a :: t₁) =
              weighted_numerator agg b.symbol
                (get_post_count_weight (unique_posts_count (b :: t₂))) r
                (b :: t₂) := by
            rw [hsymab, hpcw, weighted_numerator, weighted_numerator]
            exact (hp.map _).sum_eq
          have hfin : (aggregate_stock_sentiment agg (a :: t₁) r).final_sentiment =
              (aggregate_stock_sentiment agg (b :: t₂) r).final_sentiment := by
            rw [aggregate_cons_final, aggregate_cons_final, hden, hnum]
          refine ⟨hfin, ?_, ?_, ?_⟩
          · rw [aggregate_cons_label, aggregate_cons_label, hfin]
          · rw [aggregate_cons_confidence, aggregate_cons_confidence, hden]
            exact confidence_perm _ _ _ hp
          · rw [aggregate_cons_total, aggregate_cons_total, hlen]


lemma source_weight_reddit : get_source_weight defaultAggregator "reddit" = 1 := by
  rw [get_source_weight, if_pos (by decide)]
  simp only [dictGet, dictFind, defaultAggregator, SOURCE_WEIGHTS]
  simp +decide [List.find?]
  norm_num

lemma symbol_weight_ON : get_symbol_weight "ON" = 0.2 := by
  have h : pyUpper "ON" = "ON" := by decide
  simp only [get_symbol_weight, dictGetD, dictGet, dictFind,
    COMMON_WORD_SYMBOL_WEIGHTS, h]
  simp +decide [List.find?]

lemma symbol_weight_AAPL : get_symbol_weight "AAPL" = 1 := by
  have h : pyUpper "AAPL" = "AAPL" := by decide
  simp only [get_symbol_weight, dictGetD, dictGet, dictFind,
    COMMON_WORD_SYMBOL_WEIGHTS, h]
  simp +decide [List.find?]
  norm_num

lemma tw_zero : calculate_time_weight defaultAggregator 0 0 = 1 := by
  simp only [calculate_time_weight]
  norm_num [Real.exp_zero]

lemma pcw_two_bounds :
    1 ≤ get_post_count_weight 2 ∧ get_post_count_weight 2 ≤ 2 := by
  rw [get_post_count_weight, if_neg (by norm_num)]
  have hmin : ((MIN_POST_COUNT_WEIGHT : ℚ) : ℝ) = 1 := by
    norm_num [MIN_POST_COUNT_WEIGHT]
  have hmax : ((MAX_POST_COUNT_WEIGHT : ℚ) : ℝ) = 2 := by
    norm_num [MAX_POST_COUNT_WEIGHT]
  have hmul : ((POST_COUNT_WEIGHT_MULTIPLIER : ℚ) : ℝ) = 0.3 := by
    norm_num [POST_COUNT_WEIGHT_MULTIPLIER]
  have hlog : (0 : ℝ) ≤ Real.log ((2 : ℕ) : ℝ) := by
    apply Real.log_nonneg
    norm_num
  rw [hmin, hmax, hmul]
  constructor
  · apply le_min
    · linarith [mul_nonneg hlog (by norm_num : (0 : ℝ) ≤ 0.3)]
    · norm_num
  · exact min_le_right _ _

lemma den_two (agg : StockSentimentAggregator) (s : String) (L : ℝ) (r : ℚ)
    (x y : SentimentMention) :
    weighted_denominator agg s L r [x, y] =
      total_weight agg s L r x + total_weight agg s L r y := by
  simp [weighted_denominator]

lemma conf_two_zero (x y : SentimentMention) (W : ℝ)
    (hx : x.raw_sentiment = 0) (hy : y.raw_sentiment = 0) :
    _calculate_confidence [x, y] W =
      max 0 (min 1 (min 1 (W / 2) * 0.4 + 0.48)) := by
  simp only [_calculate_confidence]
  norm_num [hx, hy, Real.sqrt_zero]
  ring_nf


lemma tw_helper_ON :
    total_weight defaultAggregator "ON" (get_post_count_weight 2) 0 mON =
      (0.2 : ℝ) * get_post_count_weight 2 := by
  rw [total_weight]
  simp only [mON]
  rw [tw_zero, source_weight_reddit, symbol_weight_ON]
  push_cast
  ring

lemma tw_helper_ON2 :
    total_weight defaultAggregator "ON" (get_post_count_weight 2) 0 mAAPL =
      (0.2 : ℝ) * get_post_count_weight 2 := by
  rw [total_weight]
  simp only [mAAPL]
  rw [tw_zero, source_weight_reddit, symbol_weight_ON]
  push_cast
  ring

lemma tw_helper_A1 :
    total_weight defaultAggregator "AAPL" (get_post_count_weight 2) 0 mAAPL =
      get_post_count_weight 2 := by
  rw [total_weight]
  simp only [mAAPL]
  rw [tw_zero, source_weight_reddit, symbol_weight_AAPL]
  push_cast
  ring

lemma tw_helper_A2 :
    total_weight defaultAggregator "AAPL" (get_post_count_weight 2) 0 mON =
      get_post_count_weight 2 := by
  rw [total_weight]
  simp only [mON]
  rw [tw_zero, source_weight_reddit, symbol_weight_AAPL]
  push_cast
  ring

/-- Claim C4, counterexample to the unrestricted claim: for a mixed-symbol
list the symbol-ambiguity weight is taken from the first observation, so
swapping the "ON" and "AAPL" observations changes the confidence. -/
theorem C4_order_counterexample :
    ([mON, mAAPL].Perm [mAAPL, mON]) ∧
    (aggregate_stock_sentiment defaultAggregator [mON, mAAPL] 0).confidence ≠
      (aggregate_stock_sentiment defaultAggregator [mAAPL, mON] 0).confidence := by
  obtain ⟨hL1, hL2⟩ := pcw_two_bounds
  constructor
  · exact List.Perm.swap mAAPL mON []
  · have hc1 : (aggregate_stock_sentiment defaultAggregator [mON, mAAPL] 0).confidence =
        max 0 (min 1 (min 1 ((0.2 * get_post_count_weight 2 +
          0.2 * get_post_count_weight 2) / 2) * 0.4 + 0.48)) := by
      rw [aggregate_cons_confidence, conf_two_zero mON mAAPL _ rfl rfl]
      have hW : weighted_denominator defaultAggregator mON.symbol
          (get_post_count_weight (unique_posts_count [mON, mAAPL])) 0
          [mON, mAAPL] =
          0.2 * get_post_count_weight 2 + 0.2 * get_post_count_weight 2 := by
        rw [show mON.symbol = "ON" from rfl,
          show unique_posts_count [mON, mAAPL] = 2 from rfl,
          den_two, tw_helper_ON, tw_helper_ON2]
      rw [hW]
    have hc2 : (aggregate_stock_sentiment defaultAggregator [mAAPL, mON] 0).confidence =
        max 0 (min 1 (min 1 ((get_post_count_weight 2 +
          get_post_count_weight 2) / 2) * 0.4 + 0.48)) := by
      rw [aggregate_cons_confidence, conf_two_zero mAAPL mON _ rfl rfl]
      have hW : weighted_denominator defaultAggregator mAAPL.symbol
          (get_post_count_weight (unique_posts_count [mAAPL, mON])) 0
          [mAAPL, mON] =
          get_post_count_weight 2 + get_post_count_weight 2 := by
        rw [show mAAPL.symbol = "AAPL" from rfl,
          show unique_posts_count [mAAPL, mON] = 2 from rfl,
          den_two, tw_helper_A1, tw_helper_A2]
      rw [hW]
    rw [hc1, hc2]
    have h3 : (0.2 * get_post_count_weight 2 + 0.2 * get_post_count_weight 2) / 2 =
        0.2 * get_post_count_weight 2 := by ring
    have h4 : (get_post_count_weight 2 + get_post_count_weight 2) / 2 =
        get_post_count_weight 2 := by ring
    rw [h3, h4, min_eq_right (by linarith : (0.2 : ℝ) * get_post_count_weight 2 ≤ 1),
      min_eq_left hL1]
    intro heq
    rw [min_eq_right (by linarith), min_eq_right (by norm_num),
      max_eq_right (by linarith), max_eq_right (by norm_num)] at heq
    linarith


/-- Witness for C3: two concrete single-observation lists differing only in
text and post_url aggregate identically. -/
theorem C3_deterministic_witness :
    List.Forall₂ MentionObsEq
      [{ symbol := "AAPL", raw_sentiment := 1/2, timestamp := 0,
         source := "reddit", text := "bullish take", post_url := some "u1" }]
      [{ symbol := "AAPL", raw_sentiment := 1/2, timestamp := 0,
         source := "reddit", text := "different text", post_url := none }] ∧
    (aggregate_stock_sentiment defaultAggregator
        [{ symbol := "AAPL", raw_sentiment := 1/2, timestamp := 0,
           source := "reddit", text := "bullish take", post_url := some "u1" }] 0).final_sentiment =
      (aggregate_stock_sentiment defaultAggregator
        [{ symbol := "AAPL", raw_sentiment := 1/2, timestamp := 0,
           source := "reddit", text := "different text", post_url := none }] 0).final_sentiment ∧
    (aggregate_stock_sentiment defaultAggregator
        [{ symbol := "AAPL", raw_sentiment := 1/2, timestamp := 0,
           source := "reddit", text := "bullish take", post_url := some "u1" }] 0).confidence =
      (aggregate_stock_sentiment defaultAggregator
        [{ symbol := "AAPL", raw_sentiment := 1/2, timestamp := 0,
           source := "reddit", text := "different text", post_url := none }] 0).confidence := by
  have hf : List.Forall₂ MentionObsEq
      [{ symbol := "AAPL", raw_sentiment := 1/2, timestamp := 0,
         source := "reddit", text := "bullish take", post_url := some "u1" }]
      [{ symbol := "AAPL", raw_sentiment := 1/2, timestamp := 0,
         source := "reddit", text := "different text", post_url := none }] := by
    refine List.Forall₂.cons ?_ List.Forall₂.nil
    exact ⟨rfl, rfl, rfl, rfl⟩
  have h := C3_deterministic defaultAggregator 0 _ _ hf
  exact ⟨hf, h.1, h.2.2.1⟩

/-- Witness for C4 (amended): a concrete two-element same-symbol list and
its swap aggregate to the same final sentiment and confidence. -/
theorem C4_order_independence_witness :
    ([mA1, mA2].Perm [mA2, mA1]) ∧
    (∀ x ∈ [mA1, mA2], ∀ y ∈ [mA1, mA2], x.symbol = y.symbol) ∧
    (aggregate_stock_sentiment defaultAggregator [mA1, mA2] 0).final_sentiment =
      (aggregate_stock_sentiment defaultAggregator [mA2, mA1] 0).final_sentiment ∧
    (aggregate_stock_sentiment defaultAggregator [mA1, mA2] 0).confidence =
      (aggregate_stock_sentiment defaultAggregator [mA2, mA1] 0).confidence := by
  have hp : ([mA1, mA2] : List SentimentMention).Perm [mA2, mA1] :=
    List.Perm.swap _ _ []
  have hs : ∀ x ∈ ([mA1, mA2] : List SentimentMention),
      ∀ y ∈ ([mA1, mA2] : List SentimentMention), x.symbol = y.symbol := by
    intro x hx y hy
    simp only [List.mem_cons, List.not_mem_nil, or_false] at hx hy
    rcases hx with rfl | rfl <;> rcases hy with rfl | rfl <;> rfl
  have h := C4_order_independence defaultAggregator 0 _ _ hp hs
  exact ⟨hp, hs, h.1, h.2.2.1⟩


lemma addMention_fst (acc : List (String × List SentimentMention))
    (m : SentimentMention) :
    (addMention acc m).map Prod.fst =
      if acc.any (fun p => p.1 == m.symbol) then acc.map Prod.fst
      else acc.map Prod.fst ++ [m.symbol] := by
  rw [addMention]
  split_ifs with h
  · rw [List.map_map]
    apply List.map_congr_left
    intro p _
    simp only [Function.comp]
    split_ifs <;> rfl
  · simp

lemma foldl_keys_nodup :
    ∀ (l : List SentimentMention) (acc : List (String × List SentimentMention)),
      (acc.map Prod.fst).Nodup → ((l.foldl addMention acc).map Prod.fst).Nodup := by
  intro l
  induction l with
  | nil => intro acc h; exact h
  | cons m t ih =>
      intro acc h
      simp only [List.foldl_cons]
      apply ih
      rw [addMention_fst]
      split_ifs with hc
      · exact h
      · have hnm : m.symbol ∉ acc.map Prod.fst := by
          intro hmem
          apply hc
          rw [List.any_eq_true]
          obtain ⟨p, hp, hpe⟩ := List.mem_map.mp hmem
          exact ⟨p, hp, by rw [hpe]; exact beq_self_eq_true _⟩
        simp [List.nodup_append, h, hnm]


lemma lookupGroup_addMention (acc : List (String × List SentimentMention))
    (m : SentimentMention) (s : String) :
    lookupGroup (addMention acc m) s =
      if m.symbol == s then some ((lookupGroup acc s).getD [] ++ [m])
      else lookupGroup acc s := by
  rw [addMention]
  by_cases hc : acc.any (fun p => p.1 == m.symbol)
  · rw [if_pos hc]
    rw [lookupGroup, List.find?_map]
    have hcomp : ((fun p : String × List SentimentMention => p.1 == s) ∘
        (fun p : String × List SentimentMention =>
          if p.1 == m.symbol then (p.1, p.2 ++ [m]) else p)) =
        fun p : String × List SentimentMention => p.1 == s := by
      funext p
      simp only [Function.comp]
      split_ifs <;> rfl
    rw [hcomp]
    by_cases hms : m.symbol == s
    · have hseq : m.symbol = s := by simpa using hms
      rw [if_pos hms]
      have hsome : (acc.find? (fun p => p.1 == s)).isSome := by
        rw [List.find?_isSome]
        obtain ⟨p, hp, hpe⟩ := List.any_eq_true.mp hc
        refine ⟨p, hp, ?_⟩
        rw [← hseq]
        exact hpe
      obtain ⟨q, hq⟩ := Option.isSome_iff_exists.mp hsome
      have hq1 : (q.1 == m.symbol) = true := by
        have h2 := List.find?_some hq
        rw [hseq]
        exact h2
      rw [hq, lookupGroup, hq]
      simp [beq_iff_eq.mp hq1]
    · rw [if_neg hms]
      cases hq : acc.find? (fun p => p.1 == s) with
      | none => simp [lookupGroup, hq]
      | some q =>
          have hq1 := List.find?_some hq
          have hqm : (q.1 == m.symbol) = false := by
            have hq1' : q.1 = s := by simpa using hq1
            have hms' : ¬(m.symbol = s) := by simpa using hms
            rw [beq_eq_false_iff_ne]
            intro hcontra
            exact hms' (by rw [← hcontra, hq1'])
          simp [lookupGroup, hq, beq_eq_false_iff_ne.mp hqm]
  · rw [if_neg hc]
    rw [lookupGroup, List.find?_append]
    by_cases hms : m.symbol == s
    · have hseq : m.symbol = s := by simpa using hms
      have hnone : acc.find? (fun p => p.1 == s) = none := by
        rw [List.find?_eq_none]
        intro p hp hpe
        apply hc
        rw [List.any_eq_true]
        refine ⟨p, hp, ?_⟩
        rw [hseq]
        exact hpe
      rw [hnone, if_pos hms]
      simp [lookupGroup, hnone, List.find?, hms]
    · rw [if_neg hms]
      have hsingle : ([(m.symbol, [m])].find?
          (fun p : String × List SentimentMention => p.1 == s)) = none := by
        simp [List.find?, hms]
      rw [hsingle, lookupGroup]
      cases hq : acc.find? (fun p => p.1 == s) <;> simp [hq]


lemma lookupGroup_foldl :
    ∀ (l : List SentimentMention)
      (acc : List (String × List SentimentMention)) (s : String),
    lookupGroup (l.foldl addMention acc) s =
      match lookupGroup acc s with
      | some g => some (g ++ l.filter (fun m => m.symbol == s))
      | none =>
          if l.any (fun m => m.symbol == s) then
            some (l.filter (fun m => m.symbol == s))
          else none := by
  intro l
  induction l with
  | nil =>
      intro acc s
      cases h : lookupGroup acc s <;> simp [h]
  | cons m t ih =>
      intro acc s
      simp only [List.foldl_cons]
      rw [ih, lookupGroup_addMention]
      by_cases hms : m.symbol == s
      · rw [if_pos hms]
        cases h : lookupGroup acc s with
        | some g =>
            simp [h, List.filter_cons, List.any_cons, hms]
        | none =>
            simp [h, List.filter_cons, List.any_cons, hms]
      · rw [if_neg hms]
        cases h : lookupGroup acc s with
        | some g =>
            simp [h, List.filter_cons, List.any_cons, hms]
        | none =>
            simp [h, List.filter_cons, List.any_cons, hms]


/-- Claim C5: the batch aggregator's key set is exactly the set of symbols
occurring in the input, without duplicates, and the entry for each present
symbol s equals the single-symbol aggregator applied to the subsequence of
observations bearing s, at the same reference time. -/
theorem C5_batch_correctness (agg : StockSentimentAggregator)
    (all_mentions : List SentimentMention) (r : ℚ) :
    (((aggregate_multiple_stocks agg all_mentions r).map Prod.fst).Nodup) ∧
    ∀ s : String,
      lookupResult (aggregate_multiple_stocks agg all_mentions r) s =
        if all_mentions.any (fun m => m.symbol == s) then
          some (aggregate_stock_sentiment agg
            (all_mentions.filter (fun m => m.symbol == s)) r)
        else none := by
  constructor
  · rw [aggregate_multiple_stocks, List.map_map]
    have hcomp : (Prod.fst ∘ fun p : String × List SentimentMention =>
        (p.1, aggregate_stock_sentiment agg p.2 r)) = Prod.fst := by
      funext p
      rfl
    rw [hcomp, mentions_by_stock]
    exact foldl_keys_nodup all_mentions [] (by simp)
  · intro s
    rw [aggregate_multiple_stocks, lookupResult, List.find?_map]
    have hcomp : ((fun p : String × AggregatedSentiment => p.1 == s) ∘
        (fun p : String × List SentimentMention =>
          (p.1, aggregate_stock_sentiment agg p.2 r))) =
        fun p : String × List SentimentMention => p.1 == s := by
      funext p
      rfl
    rw [hcomp]
    have hsnd : ∀ o : Option (String × List SentimentMention),
        Option.map Prod.snd (Option.map
          (fun p : String × List SentimentMention =>
            (p.1, aggregate_stock_sentiment agg p.2 r)) o) =
        Option.map (fun g => aggregate_stock_sentiment agg g r)
          (Option.map Prod.snd o) := by
      intro o
      cases o <;> rfl
    rw [hsnd]
    have hlg : Option.map Prod.snd
        ((mentions_by_stock all_mentions).find?
          (fun p : String × List SentimentMention => p.1 == s)) =
        lookupGroup (mentions_by_stock all_mentions) s := rfl
    rw [hlg, mentions_by_stock, lookupGroup_foldl all_mentions [] s]
    have hnil : lookupGroup [] s = none := rfl
    rw [hnil]
    split_ifs with h <;> simp

end StockHark
